import Mathlib

/-!
Shallow embedding of the identity-resolution and aggregation pipeline of the
`centralized-repository` code base, together with proofs that settle the
frozen specification claims against it.

Conventions used throughout the embedding:
* Python strings that may be `None` or empty are modelled as `String`, where
  the empty string plays the role of every falsy value (Python truthiness of
  `doi` / `title` is `≠ ""`).
* Python `set`s become `Finset String` (or `Finset (String × String)`).
* Network requests are abstracted as oracle functions supplied as arguments:
  a page request yields either a failure (covering raised exceptions, `None`
  responses and non-200 statuses) or a list of raw items.
* Loops whose termination is part of what is being verified are written with
  explicit fuel and return `Option` results; `none` means the fuel ran out
  while the loop was still running.
* String primitives (`lower`, `strip`, `startswith`, `in`, `split`) are given
  structurally recursive definitions over the character list so that concrete
  instances evaluate inside the kernel.
-/

/-! ## String primitives -/

/-- Embeds Python `str.lower()`: character-wise lowercasing. -/
def pyLower (s : String) : String :=
  String.mk (s.data.map Char.toLower)

/-- Embeds Python `str.strip()`: drop whitespace from both ends. -/
def pyStrip (s : String) : String :=
  String.mk (((s.data.dropWhile Char.isWhitespace).reverse.dropWhile
    Char.isWhitespace).reverse)

/-- Embeds Python `str.startswith(pre)`. -/
def pyStartsWith (s pre : String) : Bool :=
  pre.data.isPrefixOf s.data

/-- Substring containment on character lists, structurally recursive. -/
def containsSub (pat : List Char) : List Char → Bool
  | [] => pat.isEmpty
  | c :: rest => pat.isPrefixOf (c :: rest) || containsSub pat rest

/-- Embeds Python `pat in s` (substring test). -/
def pyContains (s pat : String) : Bool :=
  containsSub pat.data s.data

/-- Fuelled worker for `pySplitOn`; the fuel is the length of the scanned
list, so the fuel never runs out for a non-empty separator. -/
def pySplitAux (pat : List Char) : Nat → List Char → List Char → List (List Char)
  | _, [], acc => [acc.reverse]
  | 0, s, acc => [acc.reverse ++ s]
  | fuel + 1, c :: rest, acc =>
    if pat.isPrefixOf (c :: rest) then
      acc.reverse :: pySplitAux pat fuel ((c :: rest).drop pat.length) []
    else
      pySplitAux pat fuel rest (c :: acc)

/-- Embeds Python `s.split(pat)` for a non-empty separator `pat`. -/
def pySplitOn (s pat : String) : List String :=
  (pySplitAux pat.data s.data.length s.data []).map String.mk

/-! ## ContentExporter (src/utils/exporters.py) -/

/-- State of `ContentExporter`: the two seen-sets (`seen_dois`, `seen_titles`). -/
structure ContentExporter where
  seen_dois : Finset String
  seen_titles : Finset String
  deriving DecidableEq

/-- Fresh exporter as built by `ContentExporter.__init__`. -/
def ContentExporter.empty : ContentExporter :=
  { seen_dois := ∅, seen_titles := ∅ }

/-- One row of the OpenAlex publications DataFrame, restricted to the columns
the aggregation code reads; `none` models a NaN cell (dropped by `dropna()`). -/
structure OARow where
  doi : Option String
  title : Option String
  orcid : Option String
  deriving DecidableEq

/-- Embeds `ContentExporter.initialize_from_openalex`: unions the lowercased
non-NaN DOI column into `seen_dois` and the lowercased non-NaN Title column
into `seen_titles`. -/
def ContentExporter.initialize_from_openalex (e : ContentExporter)
    (df : List OARow) : ContentExporter :=
  { seen_dois := e.seen_dois ∪ ((df.filterMap OARow.doi).map pyLower).toFinset,
    seen_titles := e.seen_titles ∪ ((df.filterMap OARow.title).map pyLower).toFinset }

/-- Embeds `ContentExporter.is_duplicate`: true when the doi is truthy and its
lowercase form is a seen doi, or the title is truthy and its lowercase form is
a seen title. -/
def ContentExporter.is_duplicate (e : ContentExporter) (doi title : String) : Bool :=
  if doi ≠ "" ∧ pyLower doi ∈ e.seen_dois then true
  else if title ≠ "" ∧ pyLower title ∈ e.seen_titles then true
  else false

/-- Embeds `ContentExporter.add_content`: inserts the lowercase doi and the
lowercase title into the respective seen-sets, skipping falsy (empty) fields. -/
def ContentExporter.add_content (e : ContentExporter) (doi title : String) :
    ContentExporter :=
  { seen_dois := if doi ≠ "" then insert (pyLower doi) e.seen_dois else e.seen_dois,
    seen_titles := if title ≠ "" then insert (pyLower title) e.seen_titles else e.seen_titles }

/-! ## Claim C1: duplicate detection policy of the Identity Index -/

/-- C1 counterexample: register a first record with doi `10.1/a` and title
`Same Title` into a fresh index; a second record with the different doi
`10.1/b` but the same title IS reported as a duplicate, although the claim
says that when both records carry DOIs only DOI equality may count. -/
theorem C1_counterexample :
    (ContentExporter.is_duplicate
      (ContentExporter.add_content ContentExporter.empty "10.1/a" "Same Title")
      "10.1/b" "Same Title" = true)
    ∧ pyLower "10.1/b" ≠ pyLower "10.1/a" := by
  constructor
  · decide
  · decide

/-- C1 amended: after registering one record into a fresh Identity Index, the
second record is reported as a duplicate iff either derived key matches —
both DOIs non-empty and equal after lowercasing, OR both titles non-empty and
equal after lowercasing.  Title equality decides even when both records carry
distinct DOIs (there is no DOI precedence in the code). -/
theorem C1_either_key_matching (d1 t1 d2 t2 : String) :
    ContentExporter.is_duplicate
      (ContentExporter.add_content ContentExporter.empty d1 t1) d2 t2 = true
    ↔ (d2 ≠ "" ∧ d1 ≠ "" ∧ pyLower d2 = pyLower d1)
      ∨ (t2 ≠ "" ∧ t1 ≠ "" ∧ pyLower t2 = pyLower t1) := by
  simp only [ContentExporter.is_duplicate, ContentExporter.add_content,
    ContentExporter.empty]
  by_cases hd1 : d1 = "" <;> by_cases ht1 : t1 = "" <;>
    by_cases hd2 : d2 = "" <;> by_cases ht2 : t2 = "" <;>
      simp [hd1, ht1, hd2, ht2]

/-! ## Claim C5: register / is_duplicate contract -/

/-- C5: registering a non-empty key makes `is_duplicate` with the same key
true; registering the same pair twice is idempotent (so the number of distinct
stored keys is unchanged by the second call); registering skips empty fields. -/
theorem C5_register_contract (e : ContentExporter) (d t : String) :
    (d ≠ "" → ContentExporter.is_duplicate (ContentExporter.add_content e d t) d t = true)
    ∧ (t ≠ "" → ContentExporter.is_duplicate (ContentExporter.add_content e d t) d t = true)
    ∧ ContentExporter.add_content (ContentExporter.add_content e d t) d t
        = ContentExporter.add_content e d t
    ∧ (ContentExporter.add_content (ContentExporter.add_content e d t) d t).seen_dois.card
        = (ContentExporter.add_content e d t).seen_dois.card
    ∧ (ContentExporter.add_content (ContentExporter.add_content e d t) d t).seen_titles.card
        = (ContentExporter.add_content e d t).seen_titles.card
    ∧ (ContentExporter.add_content e "" t).seen_dois = e.seen_dois
    ∧ (ContentExporter.add_content e d "").seen_titles = e.seen_titles := by
  have hidem : ContentExporter.add_content (ContentExporter.add_content e d t) d t
      = ContentExporter.add_content e d t := by
    simp only [ContentExporter.add_content]
    by_cases hd : d = "" <;> by_cases ht : t = "" <;> simp [hd, ht]
  refine ⟨?_, ?_, hidem, by rw [hidem], by rw [hidem], ?_, ?_⟩
  · intro hd
    simp [ContentExporter.is_duplicate, ContentExporter.add_content, hd]
  · intro ht
    by_cases hd : d = "" <;>
      simp [ContentExporter.is_duplicate, ContentExporter.add_content, hd, ht]
  · simp [ContentExporter.add_content]
  · simp [ContentExporter.add_content]

/-- C5 witness: the contract instantiated at a fresh exporter with the
concrete key doi `10.1/x`, title `T`. -/
theorem C5_register_contract_witness :
    ContentExporter.is_duplicate
      (ContentExporter.add_content ContentExporter.empty "10.1/x" "T") "10.1/x" "T" = true :=
  (C5_register_contract ContentExporter.empty "10.1/x" "T").1 (by decide)

/-! ## merge_all_sources (src/utils/exporters.py) -/

/-- One row of a per-source DataFrame handed to `merge_all_sources`,
restricted to the columns the merge reads or writes. -/
structure MergeRow where
  doi : String
  title : String
  source : String
  deriving DecidableEq

/-- Compound dedup key used by `merge_all_sources`: the pair of the helper
columns `DOI_lower` and `Title_lower`. -/
def mergeKey (r : MergeRow) : String × String :=
  (pyLower r.doi, pyLower r.title)

/-- Worker of the keep-first dedup performed by
`drop_duplicates(subset=['DOI_lower','Title_lower'], keep='first')`. -/
def dropDuplicatesAux (seen : Finset (String × String)) :
    List MergeRow → List MergeRow
  | [] => []
  | r :: rest =>
    if mergeKey r ∈ seen then dropDuplicatesAux seen rest
    else r :: dropDuplicatesAux (insert (mergeKey r) seen) rest

/-- Keep-first row dedup on the compound `(DOI_lower, Title_lower)` key. -/
def dropDuplicatesFirst (l : List MergeRow) : List MergeRow :=
  dropDuplicatesAux ∅ l

/-- Source tag assigned to the i-th DataFrame by `merge_all_sources`. -/
def mergeSourceName (i : Nat) : String :=
  match i with
  | 0 => "openalex"
  | 1 => "orcid"
  | 2 => "knowhub"
  | 3 => "website"
  | _ => "source_" ++ Nat.repr i

/-- Concatenation of the input DataFrames with the `source` column assigned
per DataFrame, as built by `merge_all_sources` before dedup. -/
def mergeCombined (dfs : List (List MergeRow)) : List MergeRow :=
  (dfs.enum.map (fun p => p.2.map (fun r => { r with source := mergeSourceName p.1 }))).flatten

/-- Embeds `ContentExporter.merge_all_sources`: tag each DataFrame with its
source name, concatenate, then drop rows whose compound lowercased
(DOI, Title) key already occurred, keeping the first occurrence. -/
def ContentExporter.merge_all_sources (dfs : List (List MergeRow)) : List MergeRow :=
  dropDuplicatesFirst (mergeCombined dfs)

/-! ### Helper lemmas about keep-first dedup -/

theorem dropDuplicatesAux_cons_mem {seen : Finset (String × String)} {r : MergeRow}
    (rest : List MergeRow) (hmem : mergeKey r ∈ seen) :
    dropDuplicatesAux seen (r :: rest) = dropDuplicatesAux seen rest := by
  simp [dropDuplicatesAux, hmem]

theorem dropDuplicatesAux_cons_fresh {seen : Finset (String × String)} {r : MergeRow}
    (rest : List MergeRow) (hmem : mergeKey r ∉ seen) :
    dropDuplicatesAux seen (r :: rest)
      = r :: dropDuplicatesAux (insert (mergeKey r) seen) rest := by
  simp [dropDuplicatesAux, hmem]

theorem dropDuplicatesAux_countP_le_one (k : String × String) :
    ∀ (l : List MergeRow) (seen : Finset (String × String)),
      (dropDuplicatesAux seen l).countP (fun r => mergeKey r = k) ≤ 1 ∧
      (k ∈ seen → (dropDuplicatesAux seen l).countP (fun r => mergeKey r = k) = 0) := by
  intro l
  induction l with
  | nil => intro seen; simp [dropDuplicatesAux]
  | cons r rest ih =>
    intro seen
    by_cases hmem : mergeKey r ∈ seen
    · rw [dropDuplicatesAux_cons_mem rest hmem]
      exact ih seen
    · rw [dropDuplicatesAux_cons_fresh rest hmem, List.countP_cons]
      by_cases hrk : mergeKey r = k
      · have hzero := (ih (insert (mergeKey r) seen)).2
          (hrk ▸ Finset.mem_insert_self (mergeKey r) seen)
        refine ⟨?_, ?_⟩
        · rw [hzero]; simp [hrk]
        · intro hkseen
          exact absurd (hrk ▸ hkseen) hmem
      · refine ⟨?_, ?_⟩
        · have h1 := (ih (insert (mergeKey r) seen)).1
          simpa [hrk] using h1
        · intro hkseen
          have hk2 : k ∈ insert (mergeKey r) seen := Finset.mem_insert_of_mem hkseen
          have hzero := (ih (insert (mergeKey r) seen)).2 hk2
          simp [hrk, hzero]

theorem dropDuplicatesAux_first (k : String × String) :
    ∀ (l : List MergeRow) (seen : Finset (String × String)), k ∉ seen →
      (dropDuplicatesAux seen l).find? (fun r => mergeKey r = k)
        = l.find? (fun r => mergeKey r = k) := by
  intro l
  induction l with
  | nil => intro seen _; simp [dropDuplicatesAux]
  | cons r rest ih =>
    intro seen hk
    by_cases hmem : mergeKey r ∈ seen
    · have hne : ¬ (mergeKey r = k) := fun h => hk (h ▸ hmem)
      rw [dropDuplicatesAux_cons_mem rest hmem, ih seen hk,
        List.find?_cons_of_neg _ (by simpa using hne)]
    · by_cases hrk : mergeKey r = k
      · rw [dropDuplicatesAux_cons_fresh rest hmem,
          List.find?_cons_of_pos _ (by simpa using hrk),
          List.find?_cons_of_pos _ (by simpa using hrk)]
      · have hk2 : k ∉ insert (mergeKey r) seen := by
          intro hmem2
          rcases Finset.mem_insert.mp hmem2 with h | h
          · exact hrk h.symm
          · exact hk h
        rw [dropDuplicatesAux_cons_fresh rest hmem,
          List.find?_cons_of_neg _ (by simpa using hrk),
          List.find?_cons_of_neg _ (by simpa using hrk)]
        exact ih (insert (mergeKey r) seen) hk2

theorem dropDuplicatesAux_mem_of_fresh :
    ∀ (l1 : List MergeRow) (r : MergeRow) (l2 : List MergeRow)
      (seen : Finset (String × String)),
      mergeKey r ∉ seen → (∀ s ∈ l1, mergeKey s ≠ mergeKey r) →
      r ∈ dropDuplicatesAux seen (l1 ++ r :: l2) := by
  intro l1
  induction l1 with
  | nil =>
    intro r l2 seen hfresh _
    rw [List.nil_append, dropDuplicatesAux_cons_fresh l2 hfresh]
    exact List.mem_cons_self r _
  | cons s l1 ih =>
    intro r l2 seen hfresh hl1
    have hsr : mergeKey s ≠ mergeKey r := hl1 s (by simp)
    have hl1' : ∀ x ∈ l1, mergeKey x ≠ mergeKey r := fun x hx => hl1 x (by simp [hx])
    rw [List.cons_append]
    by_cases hmem : mergeKey s ∈ seen
    · rw [dropDuplicatesAux_cons_mem _ hmem]
      exact ih r l2 seen hfresh hl1'
    · have hfresh2 : mergeKey r ∉ insert (mergeKey s) seen := by
        intro hmem2
        rcases Finset.mem_insert.mp hmem2 with h | h
        · exact hsr h.symm
        · exact hfresh h
      rw [dropDuplicatesAux_cons_fresh _ hmem]
      exact List.mem_cons_of_mem s (ih r l2 (insert (mergeKey s) seen) hfresh2 hl1')

/-! ## Claim C10: compound-key merge -/

/-- C10: `merge_all_sources` dedups on the compound lowercased (DOI, Title)
key, keeping first occurrences.  (1) A row preceded only by rows whose
compound key differs (for instance rows agreeing on the title but not the
DOI, or on the DOI but not the title) is kept in the merged output.  (2) At
most one row per compound key survives.  (3) The surviving row for a key is
the first occurrence in the tagged concatenation. -/
theorem C10_merge_compound_key :
    (∀ (dfs : List (List MergeRow)) (l1 : List MergeRow) (r : MergeRow)
       (l2 : List MergeRow),
       mergeCombined dfs = l1 ++ r :: l2 →
       (∀ s ∈ l1, mergeKey s ≠ mergeKey r) →
       r ∈ ContentExporter.merge_all_sources dfs)
    ∧ (∀ (dfs : List (List MergeRow)) (k : String × String),
       (ContentExporter.merge_all_sources dfs).countP (fun r => mergeKey r = k) ≤ 1)
    ∧ (∀ (dfs : List (List MergeRow)) (k : String × String),
       (ContentExporter.merge_all_sources dfs).find? (fun r => mergeKey r = k)
         = (mergeCombined dfs).find? (fun r => mergeKey r = k)) := by
  refine ⟨?_, ?_, ?_⟩
  · intro dfs l1 r l2 hsplit hl1
    unfold ContentExporter.merge_all_sources dropDuplicatesFirst
    rw [hsplit]
    exact dropDuplicatesAux_mem_of_fresh l1 r l2 ∅ (by simp) hl1
  · intro dfs k
    exact (dropDuplicatesAux_countP_le_one k (mergeCombined dfs) ∅).1
  · intro dfs k
    exact dropDuplicatesAux_first k (mergeCombined dfs) ∅ (by simp)

/-- C10 witness: two rows sharing the lowercased title `T` but carrying the
distinct DOIs `10.1/a` and `10.1/b` are both kept by the merge. -/
theorem C10_merge_compound_key_witness :
    let r1 : MergeRow := { doi := "10.1/a", title := "T", source := "openalex" }
    let r2 : MergeRow := { doi := "10.1/b", title := "T", source := "orcid" }
    r2 ∈ ContentExporter.merge_all_sources
      [[{ doi := "10.1/a", title := "T", source := "" }],
       [{ doi := "10.1/b", title := "T", source := "" }]]
    ∧ r1 ∈ ContentExporter.merge_all_sources
      [[{ doi := "10.1/a", title := "T", source := "" }],
       [{ doi := "10.1/b", title := "T", source := "" }]] := by
  constructor
  · exact C10_merge_compound_key.1
      [[{ doi := "10.1/a", title := "T", source := "" }],
       [{ doi := "10.1/b", title := "T", source := "" }]]
      [{ doi := "10.1/a", title := "T", source := "openalex" }]
      { doi := "10.1/b", title := "T", source := "orcid" } [] (by decide) (by decide)
  · exact C10_merge_compound_key.1
      [[{ doi := "10.1/a", title := "T", source := "" }],
       [{ doi := "10.1/b", title := "T", source := "" }]]
      [] { doi := "10.1/a", title := "T", source := "openalex" }
      [{ doi := "10.1/b", title := "T", source := "orcid" }] (by decide) (by decide)

/-! ## Unified record model (src/models/content.py) -/

/-- Embeds the `UnifiedContent` dataclass, restricted to string-valued views
of its fields; `date` holds the raw date string handed to the date parser
(calendar arithmetic is irrelevant to every claim). -/
structure UnifiedContent where
  title : String
  authors : List String
  date : String
  abstract : String
  url : String
  source : String
  content_type : String
  keywords : List String
  doi : String
  handle : String
  journal : String
  full_text : String
  image_url : String
  orcid_id : String
  document_type : String
  deriving DecidableEq

/-- Outcome of one page request made by a scraper loop: `fail` covers raised
exceptions, `None` responses and non-200 statuses; `ok` carries the raw items
found on the page. -/
inductive PageResult (α : Type) where
  | fail : PageResult α
  | ok : List α → PageResult α

/-! ## KnowhubScraper (src/scrapers/knowhub_scraper.py) -/

/-- Anchor element selected by `h4 a` (or the title selectors of the website
scraper): its text and its `href` attribute (`''` when absent). -/
structure AnchorElem where
  text : String
  href : String
  deriving DecidableEq

/-- Metadata extracted from a Knowhub detail page by `_extract_metadata`. -/
structure KnowhubMeta where
  authors : List String
  dateStr : String
  abstract : String
  subjects : List String
  doi : String
  journal : String
  dtype : String
  deriving DecidableEq

/-- Raw Knowhub browse item: the `h4 a` title element (if any) and the
outcome of the detail-page request (`none` when that request raised). -/
structure KnowhubItem where
  titleElem : Option AnchorElem
  detail : Option KnowhubMeta
  deriving DecidableEq

def knowhubBaseUrl : String := "https://knowhub.aphrc.org"

/-- Embeds `KnowhubScraper._parse_publication`: `None` when the item has no
title element or the detail-page request raised; otherwise the unified record
with the stripped title text, the detail-page doi, and the handle taken from
the URL. -/
def KnowhubScraper.parse_publication (it : KnowhubItem) : Option UnifiedContent :=
  match it.titleElem with
  | none => none
  | some el =>
    let url := if pyStartsWith el.href "http" then el.href else knowhubBaseUrl ++ el.href
    let handle := if pyContains url "handle" then (pySplitOn url "handle/").getLastD ""
      else ""
    match it.detail with
    | none => none
    | some md =>
      some { title := pyStrip el.text, authors := md.authors, date := md.dateStr,
             abstract := md.abstract, url := url, source := "knowhub",
             content_type := "publication", keywords := md.subjects, doi := md.doi,
             handle := handle, journal := md.journal, full_text := "",
             image_url := "", orcid_id := "", document_type := md.dtype }

/-- Inner per-page item loop of `KnowhubScraper.fetch_publications`: parse
each item, skip parse failures and already-seen handles, append fresh
publications, and break once a positive limit is reached.  Returns the new
accumulator, the new seen-set, the number of items processed on this page,
and whether the loop broke on the limit. -/
def knowhubProcessItems (limit : Nat) :
    List KnowhubItem → List UnifiedContent → Finset String → Nat →
    List UnifiedContent × Finset String × Nat × Bool
  | [], pubs, seen, processed => (pubs, seen, processed, false)
  | it :: rest, pubs, seen, processed =>
    match KnowhubScraper.parse_publication it with
    | none => knowhubProcessItems limit rest pubs seen processed
    | some pub =>
      if pub.handle ∈ seen then knowhubProcessItems limit rest pubs seen processed
      else
        let pubs2 := pubs ++ [pub]
        let seen2 := insert pub.handle seen
        if limit ≠ 0 ∧ pubs2.length ≥ limit then (pubs2, seen2, processed + 1, true)
        else knowhubProcessItems limit rest pubs2 seen2 (processed + 1)

/-- Outer pagination loop of `KnowhubScraper.fetch_publications`, with fuel.
Breaks (returning the accumulated publications) on a failed request, an empty
page, a reached positive limit, or a page contributing no new items;
otherwise advances the offset by the page size 20. -/
def knowhubFetchLoop (pages : Nat → PageResult KnowhubItem) (limit : Nat) :
    Nat → Nat → List UnifiedContent → Finset String →
    Option (List UnifiedContent × Finset String)
  | 0, _, _, _ => none
  | fuel + 1, offset, pubs, seen =>
    if limit ≠ 0 ∧ pubs.length ≥ limit then some (pubs, seen)
    else
      match pages offset with
      | PageResult.fail => some (pubs, seen)
      | PageResult.ok items =>
        if items.isEmpty then some (pubs, seen)
        else
          match knowhubProcessItems limit items pubs seen 0 with
          | (pubs2, seen2, processed, _) =>
            if limit ≠ 0 ∧ pubs2.length ≥ limit then some (pubs2, seen2)
            else if processed = 0 then some (pubs2, seen2)
            else knowhubFetchLoop pages limit fuel (offset + 20) pubs2 seen2

/-- Embeds `KnowhubScraper.fetch_publications`: run the pagination loop from
offset 0 over the instance-level seen-handle set `seen0`, then truncate to
`limit` when the limit is positive. -/
def KnowhubScraper.fetch_publications (pages : Nat → PageResult KnowhubItem)
    (limit fuel : Nat) (seen0 : Finset String) :
    Option (List UnifiedContent × Finset String) :=
  match knowhubFetchLoop pages limit fuel 0 [] seen0 with
  | none => none
  | some (pubs, seen) => some ((if limit ≠ 0 then pubs.take limit else pubs), seen)

/-! ## WebsiteScraper (src/scrapers/website_scraper.py) -/

/-- Metadata the website scraper extracts from a detail page (or, when the
detail request fails, from the item soup itself). -/
structure WebsiteMeta where
  doi : String
  dateStr : String
  authors : List String
  abstract : String
  tags : List String
  full_text : String
  image_url : String
  deriving DecidableEq

/-- Raw website listing item: its title anchor (if any), the metadata of its
detail page (`none` when the detail request raised) and the metadata
extractable from the listing soup itself (the fallback). -/
structure WebsiteItem where
  titleElem : Option AnchorElem
  detail : Option WebsiteMeta
  selfMeta : WebsiteMeta
  deriving DecidableEq

def websiteBaseUrl : String := "https://aphrc.org"

/-- Embeds `WebsiteScraper._parse_content_item`: `None` only when the item
has no title anchor; a failed detail request falls back to the listing soup
(`selfMeta`) instead of rejecting the item. -/
def WebsiteScraper.parse_content_item (it : WebsiteItem) (ctype : String) :
    Option UnifiedContent :=
  match it.titleElem with
  | none => none
  | some el =>
    let url := if pyStartsWith el.href "http" then el.href else websiteBaseUrl ++ el.href
    let md := match it.detail with
      | some m => m
      | none => it.selfMeta
    some { title := pyStrip el.text, authors := md.authors, date := md.dateStr,
           abstract := md.abstract, url := url, source := "website",
           content_type := ctype, keywords := md.tags, doi := md.doi,
           handle := "", journal := "", full_text := md.full_text,
           image_url := md.image_url, orcid_id := "", document_type := "" }

/-- Inner per-page item loop of `WebsiteScraper._fetch_content_type`: parse
each item, skip parse failures and already-seen URLs, and break once a
positive limit is reached. -/
def websiteProcessItems (ctype : String) (limit : Nat) :
    List WebsiteItem → List UnifiedContent → Finset String →
    List UnifiedContent × Finset String × Bool
  | [], items, seen => (items, seen, false)
  | it :: rest, items, seen =>
    match WebsiteScraper.parse_content_item it ctype with
    | none => websiteProcessItems ctype limit rest items seen
    | some c =>
      if c.url ∈ seen then websiteProcessItems ctype limit rest items seen
      else
        let items2 := items ++ [c]
        let seen2 := insert c.url seen
        if limit ≠ 0 ∧ items2.length ≥ limit then (items2, seen2, true)
        else websiteProcessItems ctype limit rest items2 seen2

/-- Outer pagination loop of `WebsiteScraper._fetch_content_type`: breaks on
a failed request, an empty page, or a reached positive limit; otherwise
advances to the next page number. -/
def websiteFetchLoop (pages : Nat → PageResult WebsiteItem) (ctype : String)
    (limit : Nat) :
    Nat → Nat → List UnifiedContent → Finset String → Option (List UnifiedContent)
  | 0, _, _, _ => none
  | fuel + 1, page, items, seen =>
    if limit ≠ 0 ∧ items.length ≥ limit then some items
    else
      match pages page with
      | PageResult.fail => some items
      | PageResult.ok citems =>
        if citems.isEmpty then some items
        else
          match websiteProcessItems ctype limit citems items seen with
          | (items2, seen2, _) =>
            if limit ≠ 0 ∧ items2.length ≥ limit then some items2
            else websiteFetchLoop pages ctype limit fuel (page + 1) items2 seen2

/-- Embeds `WebsiteScraper._fetch_content_type`: run the pagination loop from
page 1 with a call-local empty seen-URL set, then truncate to `limit` when
the limit is positive. -/
def WebsiteScraper.fetch_content_type (pages : Nat → PageResult WebsiteItem)
    (ctype : String) (limit fuel : Nat) : Option (List UnifiedContent) :=
  match websiteFetchLoop pages ctype limit fuel 1 [] ∅ with
  | none => none
  | some items => some (if limit ≠ 0 then items.take limit else items)

/-- Keys of the `content_types` dictionary of `WebsiteScraper`. -/
def websiteContentTypeKeys : List String :=
  ["publications", "blogs", "press", "news", "stories"]

/-- Worker of `fetch_content`: iterate over the requested content types,
skipping unknown ones, and concatenate each type's fetched items. -/
def websiteFetchAll (sources : String → Nat → PageResult WebsiteItem)
    (limit fuel : Nat) :
    List String → List UnifiedContent → Option (List UnifiedContent)
  | [], acc => some acc
  | t :: ts, acc =>
    if t ∈ websiteContentTypeKeys then
      match WebsiteScraper.fetch_content_type (sources t) t limit fuel with
      | none => none
      | some items => websiteFetchAll sources limit fuel ts (acc ++ items)
    else websiteFetchAll sources limit fuel ts acc

/-- Embeds `WebsiteScraper.fetch_content`: each selected content type is
fetched with the SAME `limit` argument and the per-type results are
concatenated (a falsy — absent or empty — `content_types` argument selects
all five types). -/
def WebsiteScraper.fetch_content (sources : String → Nat → PageResult WebsiteItem)
    (contentTypes : Option (List String)) (limit fuel : Nat) :
    Option (List UnifiedContent) :=
  let typesToFetch := match contentTypes with
    | some (t :: ts) => t :: ts
    | _ => websiteContentTypeKeys
  websiteFetchAll sources limit fuel typesToFetch []

/-! ### Limit cap lemmas -/

theorem knowhub_fetch_length_le (pages : Nat → PageResult KnowhubItem)
    (limit fuel : Nat) (seen0 : Finset String) (l : List UnifiedContent)
    (s : Finset String) (hlim : limit ≠ 0)
    (h : KnowhubScraper.fetch_publications pages limit fuel seen0 = some (l, s)) :
    l.length ≤ limit := by
  unfold KnowhubScraper.fetch_publications at h
  cases hloop : knowhubFetchLoop pages limit fuel 0 [] seen0 with
  | none => rw [hloop] at h; exact absurd h (by simp)
  | some st =>
    rw [hloop] at h
    obtain ⟨pubs, seen⟩ := st
    simp only [hlim, if_pos, Option.some.injEq, Prod.mk.injEq, ne_eq,
      not_false_iff, ite_true] at h
    obtain ⟨hl, _⟩ := h
    calc l.length = (pubs.take limit).length := by rw [hl]
      _ ≤ limit := by simp [List.length_take]

theorem website_fetch_type_length_le (pages : Nat → PageResult WebsiteItem)
    (ctype : String) (limit fuel : Nat) (l : List UnifiedContent) (hlim : limit ≠ 0)
    (h : WebsiteScraper.fetch_content_type pages ctype limit fuel = some l) :
    l.length ≤ limit := by
  unfold WebsiteScraper.fetch_content_type at h
  cases hloop : websiteFetchLoop pages ctype limit fuel 1 [] ∅ with
  | none => rw [hloop] at h; exact absurd h (by simp)
  | some items =>
    rw [hloop] at h
    simp only [hlim, Option.some.injEq, ne_eq, not_false_iff, ite_true] at h
    calc l.length = (items.take limit).length := by rw [← h]
      _ ≤ limit := by simp [List.length_take]

theorem websiteFetchAll_length_le (sources : String → Nat → PageResult WebsiteItem)
    (limit fuel : Nat) (hlim : limit ≠ 0) :
    ∀ (ts : List String) (acc : List UnifiedContent) (l : List UnifiedContent),
      websiteFetchAll sources limit fuel ts acc = some l →
      l.length ≤ acc.length + ts.length * limit := by
  intro ts
  induction ts with
  | nil =>
    intro acc l h
    simp only [websiteFetchAll, Option.some.injEq] at h
    simp [← h]
  | cons t ts ih =>
    intro acc l h
    simp only [websiteFetchAll] at h
    by_cases ht : t ∈ websiteContentTypeKeys
    · rw [if_pos ht] at h
      cases hft : WebsiteScraper.fetch_content_type (sources t) t limit fuel with
      | none => rw [hft] at h; exact absurd h (by simp)
      | some items =>
        rw [hft] at h
        have hlen := website_fetch_type_length_le (sources t) t limit fuel items hlim hft
        have hrec := ih (acc ++ items) l h
        have : (acc ++ items).length = acc.length + items.length := List.length_append _ _
        rw [this] at hrec
        calc l.length ≤ acc.length + items.length + ts.length * limit := hrec
          _ ≤ acc.length + limit + ts.length * limit := by omega
          _ = acc.length + (ts.length + 1) * limit := by ring
          _ = acc.length + (t :: ts).length * limit := by simp
    · rw [if_neg ht] at h
      have hrec := ih acc l h
      have : ts.length * limit ≤ (t :: ts).length * limit := by
        simp only [List.length_cons]
        exact Nat.mul_le_mul_right limit (Nat.le_succ _)
      omega

/-! ## Claim C2: fetch limit contract -/

/-- Concrete website source for the C2 counterexample: every content type
serves a single item on page 1 (with a per-type URL) and nothing afterwards. -/
def c2Sources (t : String) (page : Nat) : PageResult WebsiteItem :=
  if page = 1 then
    PageResult.ok [{ titleElem := some { text := "Item " ++ t, href := "/" ++ t },
                     detail := some { doi := "", dateStr := "", authors := [],
                                      abstract := "", tags := [], full_text := "",
                                      image_url := "" },
                     selfMeta := { doi := "", dateStr := "", authors := [],
                                   abstract := "", tags := [], full_text := "",
                                   image_url := "" } }]
  else PageResult.ok []

/-- C2 counterexample: with `limit = 1`, `fetch_content` over the two content
types `publications` and `blogs` returns 2 records — the limit caps each
content type separately, not the total across all content types fetched in
one call. -/
theorem C2_counterexample :
    ∃ l, WebsiteScraper.fetch_content c2Sources (some ["publications", "blogs"]) 1 3
        = some l ∧ l.length = 2 := by
  refine ⟨_, rfl, rfl⟩

/-- C2 amended: `KnowhubScraper.fetch_publications` with `limit > 0` returns
at most `limit` records in total, and with `limit = 0` applies no truncation
to what the pagination loop accumulates until exhaustion;
`WebsiteScraper.fetch_content` applies the cap PER CONTENT TYPE: each type
contributes at most `limit` records and the total is at most
(number of requested types, 5 by default) × `limit`. -/
theorem C2_fetch_limit (pages : Nat → PageResult KnowhubItem)
    (wsources : String → Nat → PageResult WebsiteItem)
    (wpages : Nat → PageResult WebsiteItem)
    (ctype : String) (ts : List String) (limit fuel : Nat) (seen0 : Finset String) :
    (∀ l s, limit ≠ 0 →
      KnowhubScraper.fetch_publications pages limit fuel seen0 = some (l, s) →
      l.length ≤ limit)
    ∧ (∀ l, limit ≠ 0 →
      WebsiteScraper.fetch_content_type wpages ctype limit fuel = some l →
      l.length ≤ limit)
    ∧ (∀ l, limit ≠ 0 →
      WebsiteScraper.fetch_content wsources (some ts) limit fuel = some l →
      l.length ≤ (max ts.length 5) * limit)
    ∧ KnowhubScraper.fetch_publications pages 0 fuel seen0
        = knowhubFetchLoop pages 0 fuel 0 [] seen0
    ∧ (WebsiteScraper.fetch_content_type wpages ctype 0 fuel
        = websiteFetchLoop wpages ctype 0 fuel 1 [] ∅) := by
  refine ⟨?_, ?_, ?_, ?_, ?_⟩
  · intro l s hlim h
    exact knowhub_fetch_length_le pages limit fuel seen0 l s hlim h
  · intro l hlim h
    exact website_fetch_type_length_le wpages ctype limit fuel l hlim h
  · intro l hlim h
    unfold WebsiteScraper.fetch_content at h
    cases ts with
    | nil =>
      have hlen := websiteFetchAll_length_le wsources limit fuel hlim
        websiteContentTypeKeys [] l h
      have h5 : websiteContentTypeKeys.length = 5 := rfl
      have hmax : max ([] : List String).length 5 = 5 := rfl
      rw [h5] at hlen
      rw [hmax]
      simpa using hlen
    | cons t ts =>
      have := websiteFetchAll_length_le wsources limit fuel hlim (t :: ts) [] l h
      have hle : (t :: ts).length ≤ max (t :: ts).length 5 := Nat.le_max_left _ _
      have := Nat.mul_le_mul_right limit hle
      simp only [List.length_nil, Nat.zero_add] at *
      omega
  · unfold KnowhubScraper.fetch_publications
    cases knowhubFetchLoop pages 0 fuel 0 [] seen0 with
    | none => rfl
    | some st => obtain ⟨pubs, seen⟩ := st; simp
  · unfold WebsiteScraper.fetch_content_type
    cases websiteFetchLoop wpages ctype 0 fuel 1 [] ∅ with
    | none => rfl
    | some items => simp

/-- C2 witness: the caps instantiated at the concrete one-item-per-type
source with limit 1. -/
theorem C2_fetch_limit_witness :
    ∀ l, WebsiteScraper.fetch_content_type (c2Sources "blogs") "blogs" 1 3 = some l →
      l.length ≤ 1 :=
  fun l h =>
    (C2_fetch_limit (fun _ => PageResult.ok []) c2Sources (c2Sources "blogs")
      "blogs" ["publications", "blogs"] 1 3 ∅).2.1 l (by decide) h

/-! ### Pagination termination lemmas -/

/-- One-step unfolding of the Knowhub pagination loop. -/
theorem knowhubFetchLoop_step (pages : Nat → PageResult KnowhubItem)
    (limit fuel offset : Nat) (pubs : List UnifiedContent) (seen : Finset String) :
    knowhubFetchLoop pages limit (fuel + 1) offset pubs seen
      = if limit ≠ 0 ∧ pubs.length ≥ limit then some (pubs, seen)
        else
          match pages offset with
          | PageResult.fail => some (pubs, seen)
          | PageResult.ok items =>
            if items.isEmpty then some (pubs, seen)
            else
              match knowhubProcessItems limit items pubs seen 0 with
              | (pubs2, seen2, processed, _) =>
                if limit ≠ 0 ∧ pubs2.length ≥ limit then some (pubs2, seen2)
                else if processed = 0 then some (pubs2, seen2)
                else knowhubFetchLoop pages limit fuel (offset + 20) pubs2 seen2 := rfl

/-- One-step unfolding of the website pagination loop. -/
theorem websiteFetchLoop_step (pages : Nat → PageResult WebsiteItem) (ctype : String)
    (limit fuel page : Nat) (items : List UnifiedContent) (seen : Finset String) :
    websiteFetchLoop pages ctype limit (fuel + 1) page items seen
      = if limit ≠ 0 ∧ items.length ≥ limit then some items
        else
          match pages page with
          | PageResult.fail => some items
          | PageResult.ok citems =>
            if citems.isEmpty then some items
            else
              match websiteProcessItems ctype limit citems items seen with
              | (items2, seen2, _) =>
                if limit ≠ 0 ∧ items2.length ≥ limit then some items2
                else websiteFetchLoop pages ctype limit fuel (page + 1) items2 seen2 := rfl

theorem knowhubFetchLoop_isSome (pages : Nat → PageResult KnowhubItem) (limit : Nat) :
    ∀ (fuel : Nat) (offset m : Nat) (pubs : List UnifiedContent) (seen : Finset String),
      m < fuel → pages (offset + 20 * m) = PageResult.ok [] →
      (knowhubFetchLoop pages limit fuel offset pubs seen).isSome := by
  intro fuel
  induction fuel with
  | zero => intro offset m pubs seen hm _; exact absurd hm (Nat.not_lt_zero m)
  | succ fuel ih =>
    intro offset m pubs seen hm hempty
    rw [knowhubFetchLoop_step]
    by_cases hstop : limit ≠ 0 ∧ pubs.length ≥ limit
    · simp [hstop]
    · rw [if_neg hstop]
      cases hp : pages offset with
      | fail => simp
      | ok items =>
        dsimp only
        by_cases hitems : items.isEmpty
        · rw [if_pos hitems]; simp
        · rw [if_neg hitems]
          cases m with
          | zero =>
            rw [Nat.mul_zero, Nat.add_zero, hp] at hempty
            cases hempty
            simp at hitems
          | succ m2 =>
            rcases hr : knowhubProcessItems limit items pubs seen 0 with
              ⟨pubs2, seen2, processed, b⟩
            dsimp only
            by_cases hstop2 : limit ≠ 0 ∧ pubs2.length ≥ limit
            · rw [if_pos hstop2]; simp
            · rw [if_neg hstop2]
              by_cases hproc : processed = 0
              · rw [if_pos hproc]; simp
              · rw [if_neg hproc]
                refine ih (offset + 20) m2 pubs2 seen2 (Nat.lt_of_succ_lt_succ hm) ?_
                have harith : offset + 20 + 20 * m2 = offset + 20 * (m2 + 1) := by ring
                rw [harith]
                exact hempty

theorem websiteFetchLoop_isSome (pages : Nat → PageResult WebsiteItem)
    (ctype : String) (limit : Nat) :
    ∀ (fuel : Nat) (page m : Nat) (items : List UnifiedContent) (seen : Finset String),
      m < fuel → pages (page + m) = PageResult.ok [] →
      (websiteFetchLoop pages ctype limit fuel page items seen).isSome := by
  intro fuel
  induction fuel with
  | zero => intro page m items seen hm _; exact absurd hm (Nat.not_lt_zero m)
  | succ fuel ih =>
    intro page m items seen hm hempty
    rw [websiteFetchLoop_step]
    by_cases hstop : limit ≠ 0 ∧ items.length ≥ limit
    · simp [hstop]
    · rw [if_neg hstop]
      cases hp : pages page with
      | fail => simp
      | ok citems =>
        dsimp only
        by_cases hcit : citems.isEmpty
        · rw [if_pos hcit]; simp
        · rw [if_neg hcit]
          cases m with
          | zero =>
            rw [Nat.add_zero, hp] at hempty
            cases hempty
            simp at hcit
          | succ m2 =>
            rcases hr : websiteProcessItems ctype limit citems items seen with
              ⟨items2, seen2, b⟩
            dsimp only
            by_cases hstop2 : limit ≠ 0 ∧ items2.length ≥ limit
            · rw [if_pos hstop2]; simp
            · rw [if_neg hstop2]
              refine ih (page + 1) m2 items2 seen2 (Nat.lt_of_succ_lt_succ hm) ?_
              have harith : page + 1 + m2 = page + (m2 + 1) := by ring
              rw [harith]
              exact hempty

/-! ### Exhaustion-value lemmas -/

/-- Reference accumulation for `fetch_publications` with `limit = 0`: the
state after the item loops of pages 0 .. n-1 (offsets 0, 20, ..). -/
def knowhubAccumulate (pages : Nat → PageResult KnowhubItem) (seen0 : Finset String) :
    Nat → List UnifiedContent × Finset String
  | 0 => ([], seen0)
  | n + 1 =>
    let st := knowhubAccumulate pages seen0 n
    match pages (20 * n) with
    | PageResult.fail => st
    | PageResult.ok items =>
      let r := knowhubProcessItems 0 items st.1 st.2 0
      (r.1, r.2.1)

theorem knowhubFetchLoop_exhaust (pages : Nat → PageResult KnowhubItem)
    (seen0 : Finset String) :
    ∀ (d j : Nat),
      pages (20 * (j + d)) = PageResult.ok [] →
      (∀ k, j ≤ k → k < j + d → ∃ items, pages (20 * k) = PageResult.ok items ∧
        items ≠ [] ∧
        (knowhubProcessItems 0 items (knowhubAccumulate pages seen0 k).1
          (knowhubAccumulate pages seen0 k).2 0).2.2.1 ≠ 0) →
      knowhubFetchLoop pages 0 (d + 1) (20 * j)
        (knowhubAccumulate pages seen0 j).1 (knowhubAccumulate pages seen0 j).2
        = some (knowhubAccumulate pages seen0 (j + d)) := by
  intro d
  induction d with
  | zero =>
    intro j hempty _
    rw [Nat.add_zero] at hempty
    rw [knowhubFetchLoop_step, if_neg (by simp), hempty]
    simp
  | succ d ih =>
    intro j hempty hpages
    obtain ⟨items, hpj, hne, hproc⟩ := hpages j (Nat.le_refl j) (by omega)
    have hnonempty : ¬ items.isEmpty := by
      cases items with
      | nil => exact absurd rfl hne
      | cons a l => simp
    rw [knowhubFetchLoop_step, if_neg (by simp), hpj]
    dsimp only
    rw [if_neg hnonempty]
    rcases hr : knowhubProcessItems 0 items (knowhubAccumulate pages seen0 j).1
        (knowhubAccumulate pages seen0 j).2 0 with ⟨pubs2, seen2, processed, b⟩
    dsimp only
    have hprocessed : processed ≠ 0 := by
      rw [hr] at hproc
      simpa using hproc
    rw [if_neg (by simp), if_neg hprocessed]
    have hstep : knowhubAccumulate pages seen0 (j + 1) = (pubs2, seen2) := by
      show (let st := knowhubAccumulate pages seen0 j
        match pages (20 * j) with
        | PageResult.fail => st
        | PageResult.ok items =>
          let r := knowhubProcessItems 0 items st.1 st.2 0
          (r.1, r.2.1)) = (pubs2, seen2)
      rw [hpj]
      dsimp only
      rw [hr]
    have hempty2 : pages (20 * (j + 1 + d)) = PageResult.ok [] := by
      have hidx : j + 1 + d = j + (d + 1) := by ring
      rw [hidx]
      exact hempty
    have hpages2 : ∀ k, j + 1 ≤ k → k < j + 1 + d → ∃ items,
        pages (20 * k) = PageResult.ok items ∧ items ≠ [] ∧
        (knowhubProcessItems 0 items (knowhubAccumulate pages seen0 k).1
          (knowhubAccumulate pages seen0 k).2 0).2.2.1 ≠ 0 := by
      intro k hk1 hk2
      exact hpages k (by omega) (by omega)
    have hrec := ih (j + 1) hempty2 hpages2
    rw [hstep] at hrec
    dsimp only at hrec
    have harith : 20 * j + 20 = 20 * (j + 1) := by ring
    rw [harith, hrec]
    have hidx : j + 1 + d = j + (d + 1) := by ring
    rw [hidx]

/-- Reference accumulation for `_fetch_content_type` with `limit = 0`: the
state after the item loops of pages 1 .. n. -/
def websiteAccumulate (pages : Nat → PageResult WebsiteItem) (ctype : String) :
    Nat → List UnifiedContent × Finset String
  | 0 => ([], ∅)
  | n + 1 =>
    let st := websiteAccumulate pages ctype n
    match pages (n + 1) with
    | PageResult.fail => st
    | PageResult.ok citems =>
      let r := websiteProcessItems ctype 0 citems st.1 st.2
      (r.1, r.2.1)

theorem websiteFetchLoop_exhaust (pages : Nat → PageResult WebsiteItem)
    (ctype : String) :
    ∀ (d j : Nat),
      pages (j + d + 1) = PageResult.ok [] →
      (∀ k, j + 1 ≤ k → k ≤ j + d → ∃ citems, pages k = PageResult.ok citems ∧
        citems ≠ []) →
      websiteFetchLoop pages ctype 0 (d + 1) (j + 1)
        (websiteAccumulate pages ctype j).1 (websiteAccumulate pages ctype j).2
        = some (websiteAccumulate pages ctype (j + d)).1 := by
  intro d
  induction d with
  | zero =>
    intro j hempty _
    rw [Nat.add_zero] at hempty
    rw [websiteFetchLoop_step, if_neg (by simp), hempty]
    simp
  | succ d ih =>
    intro j hempty hpages
    obtain ⟨citems, hpj, hne⟩ := hpages (j + 1) (Nat.le_refl _) (by omega)
    have hnonempty : ¬ citems.isEmpty := by
      cases citems with
      | nil => exact absurd rfl hne
      | cons a l => simp
    rw [websiteFetchLoop_step, if_neg (by simp), hpj]
    dsimp only
    rw [if_neg hnonempty]
    rcases hr : websiteProcessItems ctype 0 citems (websiteAccumulate pages ctype j).1
        (websiteAccumulate pages ctype j).2 with ⟨items2, seen2, b⟩
    dsimp only
    rw [if_neg (by simp)]
    have hstep : websiteAccumulate pages ctype (j + 1) = (items2, seen2) := by
      show (let st := websiteAccumulate pages ctype j
        match pages (j + 1) with
        | PageResult.fail => st
        | PageResult.ok citems =>
          let r := websiteProcessItems ctype 0 citems st.1 st.2
          (r.1, r.2.1)) = (items2, seen2)
      rw [hpj]
      dsimp only
      rw [hr]
    have hempty2 : pages (j + 1 + d + 1) = PageResult.ok [] := by
      have hidx : j + 1 + d = j + (d + 1) := by ring
      rw [hidx]
      exact hempty
    have hpages2 : ∀ k, j + 1 + 1 ≤ k → k ≤ j + 1 + d → ∃ citems,
        pages k = PageResult.ok citems ∧ citems ≠ [] := by
      intro k hk1 hk2
      exact hpages k (by omega) (by omega)
    have hrec := ih (j + 1) hempty2 hpages2
    rw [hstep] at hrec
    dsimp only at hrec
    rw [hrec]
    have hidx : j + 1 + d = j + (d + 1) := by ring
    rw [hidx]

/-! ## Claim C7: pagination termination -/

/-- C7: with any limit, each pagination loop needs at most m+1 page requests
when the page at distance m is empty (the `.isSome` conjuncts); and with
`limit = 0` and an exhausted source — pages 1..N-1 succeed and contribute,
page N is empty — the fetch returns exactly the records accumulated from the
earlier pages, as a normal value and untruncated. -/
theorem C7_pagination_termination :
    (∀ (pages : Nat → PageResult KnowhubItem) (limit fuel offset m : Nat)
       (pubs : List UnifiedContent) (seen : Finset String),
       m < fuel → pages (offset + 20 * m) = PageResult.ok [] →
       (knowhubFetchLoop pages limit fuel offset pubs seen).isSome)
    ∧ (∀ (pages : Nat → PageResult KnowhubItem) (seen0 : Finset String) (N : Nat),
       pages (20 * N) = PageResult.ok [] →
       (∀ k, k < N → ∃ items, pages (20 * k) = PageResult.ok items ∧ items ≠ [] ∧
         (knowhubProcessItems 0 items (knowhubAccumulate pages seen0 k).1
           (knowhubAccumulate pages seen0 k).2 0).2.2.1 ≠ 0) →
       KnowhubScraper.fetch_publications pages 0 (N + 1) seen0
         = some (knowhubAccumulate pages seen0 N))
    ∧ (∀ (pages : Nat → PageResult WebsiteItem) (ctype : String)
       (limit fuel page m : Nat) (items : List UnifiedContent) (seen : Finset String),
       m < fuel → pages (page + m) = PageResult.ok [] →
       (websiteFetchLoop pages ctype limit fuel page items seen).isSome)
    ∧ (∀ (pages : Nat → PageResult WebsiteItem) (ctype : String) (N : Nat),
       pages (N + 1) = PageResult.ok [] →
       (∀ k, 1 ≤ k → k ≤ N → ∃ citems, pages k = PageResult.ok citems ∧ citems ≠ []) →
       WebsiteScraper.fetch_content_type pages ctype 0 (N + 1)
         = some (websiteAccumulate pages ctype N).1) := by
  refine ⟨?_, ?_, ?_, ?_⟩
  · intro pages limit fuel offset m pubs seen hm hempty
    exact knowhubFetchLoop_isSome pages limit fuel offset m pubs seen hm hempty
  · intro pages seen0 N hN hpages
    have hexh := knowhubFetchLoop_exhaust pages seen0 N 0
      (by simpa using hN)
      (by intro k hk0 hkN; exact hpages k (by omega))
    have h0 : (20 * 0 : Nat) = 0 := rfl
    have h1 : (knowhubAccumulate pages seen0 0).1 = [] := rfl
    have h2 : (knowhubAccumulate pages seen0 0).2 = seen0 := rfl
    have h3 : 0 + N = N := Nat.zero_add N
    rw [h0, h1, h2, h3] at hexh
    unfold KnowhubScraper.fetch_publications
    rw [hexh]
    simp
  · intro pages ctype limit fuel page m items seen hm hempty
    exact websiteFetchLoop_isSome pages ctype limit fuel page m items seen hm hempty
  · intro pages ctype N hN hpages
    have hexh := websiteFetchLoop_exhaust pages ctype N 0
      (by simpa using hN)
      (by intro k hk1 hkN; exact hpages k (by omega) (by omega))
    have h0 : (0 + 1 : Nat) = 1 := rfl
    have h1 : (websiteAccumulate pages ctype 0).1 = [] := rfl
    have h2 : (websiteAccumulate pages ctype 0).2 = ∅ := rfl
    have h3 : 0 + N = N := Nat.zero_add N
    rw [h0, h1, h2, h3] at hexh
    unfold WebsiteScraper.fetch_content_type
    rw [hexh]
    simp

/-- Concrete Knowhub source for the C7 witness: one parsable item on the
first page (offset 0), nothing afterwards. -/
def c7Item : KnowhubItem :=
  { titleElem := some { text := "A Pub", href := "/x" },
    detail := some { authors := [], dateStr := "", abstract := "", subjects := [],
                     doi := "10.1/z", journal := "", dtype := "" } }

def c7Pages (off : Nat) : PageResult KnowhubItem :=
  if off = 0 then PageResult.ok [c7Item] else PageResult.ok []

/-- C7 witness: the exhaustion theorem instantiated at the one-page source,
whose second page (offset 20) is empty. -/
theorem C7_pagination_termination_witness :
    KnowhubScraper.fetch_publications c7Pages 0 2 ∅
      = some (knowhubAccumulate c7Pages ∅ 1) := by
  refine C7_pagination_termination.2.1 c7Pages ∅ 1 rfl ?_
  intro k hk
  interval_cases k
  exact ⟨[c7Item], rfl, by decide, by decide⟩

/-! ### Seen-set dedup invariants -/

theorem knowhubProcessItems_inv (limit : Nat) :
    ∀ (items : List KnowhubItem) (pubs : List UnifiedContent) (seen : Finset String)
      (processed : Nat),
      (pubs.map UnifiedContent.handle).Nodup → (∀ p ∈ pubs, p.handle ∈ seen) →
      ((knowhubProcessItems limit items pubs seen processed).1.map
        UnifiedContent.handle).Nodup
      ∧ (∀ p ∈ (knowhubProcessItems limit items pubs seen processed).1,
          p.handle ∈ (knowhubProcessItems limit items pubs seen processed).2.1) := by
  intro items
  induction items with
  | nil =>
    intro pubs seen processed h1 h2
    exact ⟨h1, h2⟩
  | cons it rest ih =>
    intro pubs seen processed h1 h2
    simp only [knowhubProcessItems]
    cases hparse : KnowhubScraper.parse_publication it with
    | none => exact ih pubs seen processed h1 h2
    | some pub =>
      dsimp only
      by_cases hseen : pub.handle ∈ seen
      · rw [if_pos hseen]
        exact ih pubs seen processed h1 h2
      · rw [if_neg hseen]
        have hnotin : pub.handle ∉ pubs.map UnifiedContent.handle := by
          intro hmem
          obtain ⟨p, hp, hph⟩ := List.mem_map.mp hmem
          exact hseen (hph ▸ h2 p hp)
        have hnodup2 : ((pubs ++ [pub]).map UnifiedContent.handle).Nodup := by
          rw [List.map_append, List.map_singleton, List.nodup_append]
          refine ⟨h1, List.nodup_singleton _, ?_⟩
          intro x hx
          simp only [List.mem_singleton]
          intro hxa
          exact hnotin (hxa ▸ hx)
        have hmem2 : ∀ p ∈ pubs ++ [pub], p.handle ∈ insert pub.handle seen := by
          intro p hp
          rcases List.mem_append.mp hp with h | h
          · exact Finset.mem_insert_of_mem (h2 p h)
          · rw [List.mem_singleton] at h
            rw [h]
            exact Finset.mem_insert_self _ _
        by_cases hbrk : limit ≠ 0 ∧ (pubs ++ [pub]).length ≥ limit
        · rw [if_pos hbrk]
          exact ⟨hnodup2, hmem2⟩
        · rw [if_neg hbrk]
          exact ih (pubs ++ [pub]) (insert pub.handle seen) (processed + 1) hnodup2 hmem2

theorem knowhubFetchLoop_nodup (pages : Nat → PageResult KnowhubItem) (limit : Nat) :
    ∀ (fuel offset : Nat) (pubs : List UnifiedContent) (seen : Finset String)
      (l : List UnifiedContent) (s : Finset String),
      (pubs.map UnifiedContent.handle).Nodup → (∀ p ∈ pubs, p.handle ∈ seen) →
      knowhubFetchLoop pages limit fuel offset pubs seen = some (l, s) →
      (l.map UnifiedContent.handle).Nodup := by
  intro fuel
  induction fuel with
  | zero =>
    intro offset pubs seen l s _ _ h
    exact absurd h (by simp [knowhubFetchLoop])
  | succ fuel ih =>
    intro offset pubs seen l s h1 h2 h
    rw [knowhubFetchLoop_step] at h
    by_cases hstop : limit ≠ 0 ∧ pubs.length ≥ limit
    · rw [if_pos hstop] at h
      cases h
      exact h1
    · rw [if_neg hstop] at h
      cases hp : pages offset with
      | fail =>
        rw [hp] at h
        cases h
        exact h1
      | ok items =>
        rw [hp] at h
        dsimp only at h
        by_cases hitems : items.isEmpty
        · rw [if_pos hitems] at h
          cases h
          exact h1
        · rw [if_neg hitems] at h
          rcases hr : knowhubProcessItems limit items pubs seen 0 with
            ⟨pubs2, seen2, processed, b⟩
          rw [hr] at h
          dsimp only at h
          have hinv := knowhubProcessItems_inv limit items pubs seen 0 h1 h2
          rw [hr] at hinv
          dsimp only at hinv
          by_cases hstop2 : limit ≠ 0 ∧ pubs2.length ≥ limit
          · rw [if_pos hstop2] at h
            cases h
            exact hinv.1
          · rw [if_neg hstop2] at h
            by_cases hproc : processed = 0
            · rw [if_pos hproc] at h
              cases h
              exact hinv.1
            · rw [if_neg hproc] at h
              exact ih (offset + 20) pubs2 seen2 l s hinv.1 hinv.2 h

theorem websiteProcessItems_inv (ctype : String) (limit : Nat) :
    ∀ (citems : List WebsiteItem) (items : List UnifiedContent) (seen : Finset String),
      (items.map UnifiedContent.url).Nodup → (∀ p ∈ items, p.url ∈ seen) →
      ((websiteProcessItems ctype limit citems items seen).1.map
        UnifiedContent.url).Nodup
      ∧ (∀ p ∈ (websiteProcessItems ctype limit citems items seen).1,
          p.url ∈ (websiteProcessItems ctype limit citems items seen).2.1) := by
  intro citems
  induction citems with
  | nil =>
    intro items seen h1 h2
    exact ⟨h1, h2⟩
  | cons it rest ih =>
    intro items seen h1 h2
    simp only [websiteProcessItems]
    cases hparse : WebsiteScraper.parse_content_item it ctype with
    | none => exact ih items seen h1 h2
    | some c =>
      dsimp only
      by_cases hseen : c.url ∈ seen
      · rw [if_pos hseen]
        exact ih items seen h1 h2
      · rw [if_neg hseen]
        have hnotin : c.url ∉ items.map UnifiedContent.url := by
          intro hmem
          obtain ⟨p, hp, hph⟩ := List.mem_map.mp hmem
          exact hseen (hph ▸ h2 p hp)
        have hnodup2 : ((items ++ [c]).map UnifiedContent.url).Nodup := by
          rw [List.map_append, List.map_singleton, List.nodup_append]
          refine ⟨h1, List.nodup_singleton _, ?_⟩
          intro x hx
          simp only [List.mem_singleton]
          intro hxa
          exact hnotin (hxa ▸ hx)
        have hmem2 : ∀ p ∈ items ++ [c], p.url ∈ insert c.url seen := by
          intro p hp
          rcases List.mem_append.mp hp with h | h
          · exact Finset.mem_insert_of_mem (h2 p h)
          · rw [List.mem_singleton] at h
            rw [h]
            exact Finset.mem_insert_self _ _
        by_cases hbrk : limit ≠ 0 ∧ (items ++ [c]).length ≥ limit
        · rw [if_pos hbrk]
          exact ⟨hnodup2, hmem2⟩
        · rw [if_neg hbrk]
          exact ih (items ++ [c]) (insert c.url seen) hnodup2 hmem2

theorem websiteFetchLoop_nodup (pages : Nat → PageResult WebsiteItem)
    (ctype : String) (limit : Nat) :
    ∀ (fuel page : Nat) (items : List UnifiedContent) (seen : Finset String)
      (l : List UnifiedContent),
      (items.map UnifiedContent.url).Nodup → (∀ p ∈ items, p.url ∈ seen) →
      websiteFetchLoop pages ctype limit fuel page items seen = some l →
      (l.map UnifiedContent.url).Nodup := by
  intro fuel
  induction fuel with
  | zero =>
    intro page items seen l _ _ h
    exact absurd h (by simp [websiteFetchLoop])
  | succ fuel ih =>
    intro page items seen l h1 h2 h
    rw [websiteFetchLoop_step] at h
    by_cases hstop : limit ≠ 0 ∧ items.length ≥ limit
    · rw [if_pos hstop] at h
      cases h
      exact h1
    · rw [if_neg hstop] at h
      cases hp : pages page with
      | fail =>
        rw [hp] at h
        cases h
        exact h1
      | ok citems =>
        rw [hp] at h
        dsimp only at h
        by_cases hcit : citems.isEmpty
        · rw [if_pos hcit] at h
          cases h
          exact h1
        · rw [if_neg hcit] at h
          rcases hr : websiteProcessItems ctype limit citems items seen with
            ⟨items2, seen2, b⟩
          rw [hr] at h
          dsimp only at h
          have hinv := websiteProcessItems_inv ctype limit citems items seen h1 h2
          rw [hr] at hinv
          dsimp only at hinv
          by_cases hstop2 : limit ≠ 0 ∧ items2.length ≥ limit
          · rw [if_pos hstop2] at h
            cases h
            exact hinv.1
          · rw [if_neg hstop2] at h
            exact ih (page + 1) items2 seen2 l hinv.1 hinv.2 h

/-! ## Claim C8: within-adapter dedup by origin identifier -/

/-- Concrete website source for the C8 counterexample: the content types all
serve, on their first page, the same item with the same absolute URL. -/
def c8Sources (_t : String) (page : Nat) : PageResult WebsiteItem :=
  if page = 1 then
    PageResult.ok [{ titleElem := some { text := "Shared Item",
                                         href := "http://aphrc.org/shared" },
                     detail := some { doi := "", dateStr := "", authors := [],
                                      abstract := "", tags := [], full_text := "",
                                      image_url := "" },
                     selfMeta := { doi := "", dateStr := "", authors := [],
                                   abstract := "", tags := [], full_text := "",
                                   image_url := "" } }]
  else PageResult.ok []

/-- C8 counterexample: since the website seen-URL set is local to each
content type's pagination loop, one `fetch_content` call over two content
types returns two records with the same URL (origin identifier). -/
theorem C8_counterexample :
    ∃ l, WebsiteScraper.fetch_content c8Sources (some ["publications", "blogs"]) 0 2
        = some l ∧ ¬ (l.map UnifiedContent.url).Nodup := by
  refine ⟨_, rfl, by decide⟩

/-- C8 amended: within one pagination loop the source-local seen-set does
guarantee distinct origin identifiers — a `fetch_publications` call returns
records with pairwise distinct handles, and a `_fetch_content_type` call
returns records with pairwise distinct URLs; only across content types of
one `fetch_content` call can a URL repeat. -/
theorem C8_within_loop_dedup :
    (∀ (pages : Nat → PageResult KnowhubItem) (limit fuel : Nat)
       (seen0 : Finset String) (l : List UnifiedContent) (s : Finset String),
       KnowhubScraper.fetch_publications pages limit fuel seen0 = some (l, s) →
       (l.map UnifiedContent.handle).Nodup)
    ∧ (∀ (pages : Nat → PageResult WebsiteItem) (ctype : String) (limit fuel : Nat)
       (l : List UnifiedContent),
       WebsiteScraper.fetch_content_type pages ctype limit fuel = some l →
       (l.map UnifiedContent.url).Nodup) := by
  constructor
  · intro pages limit fuel seen0 l s h
    unfold KnowhubScraper.fetch_publications at h
    cases hloop : knowhubFetchLoop pages limit fuel 0 [] seen0 with
    | none => rw [hloop] at h; exact absurd h (by simp)
    | some st =>
      obtain ⟨pubs, seen⟩ := st
      rw [hloop] at h
      have hnodup : (pubs.map UnifiedContent.handle).Nodup :=
        knowhubFetchLoop_nodup pages limit fuel 0 [] seen0 pubs seen
          (by simp) (by simp) hloop
      simp only [Option.some.injEq, Prod.mk.injEq] at h
      obtain ⟨hl, _⟩ := h
      rw [← hl]
      by_cases hlim : limit ≠ 0
      · rw [if_pos hlim, List.map_take]
        exact hnodup.sublist (List.take_sublist limit _)
      · rw [if_neg hlim]
        exact hnodup
  · intro pages ctype limit fuel l h
    unfold WebsiteScraper.fetch_content_type at h
    cases hloop : websiteFetchLoop pages ctype limit fuel 1 [] ∅ with
    | none => rw [hloop] at h; exact absurd h (by simp)
    | some items =>
      rw [hloop] at h
      have hnodup : (items.map UnifiedContent.url).Nodup :=
        websiteFetchLoop_nodup pages ctype limit fuel 1 [] ∅ items
          (by simp) (by simp) hloop
      simp only [Option.some.injEq] at h
      rw [← h]
      by_cases hlim : limit ≠ 0
      · rw [if_pos hlim, List.map_take]
        exact hnodup.sublist (List.take_sublist limit _)
      · rw [if_neg hlim]
        exact hnodup

/-- Concrete Knowhub source for the C8 witness: two items on the first page
whose URLs carry no repository handle, nothing afterwards. -/
def c8KPages (off : Nat) : PageResult KnowhubItem :=
  if off = 0 then
    PageResult.ok
      [{ titleElem := some { text := "First", href := "/a" },
         detail := some { authors := [], dateStr := "", abstract := "",
                          subjects := [], doi := "10.1/a", journal := "", dtype := "" } },
       { titleElem := some { text := "Second", href := "/b" },
         detail := some { authors := [], dateStr := "", abstract := "",
                          subjects := [], doi := "10.1/b", journal := "", dtype := "" } }]
  else PageResult.ok []

/-- C8 witness: the dedup theorem instantiated at the concrete two-item
Knowhub source. -/
theorem C8_within_loop_dedup_witness :
    ∃ l s, KnowhubScraper.fetch_publications c8KPages 0 3 ∅ = some (l, s) ∧
      (l.map UnifiedContent.handle).Nodup :=
  ⟨_, _, rfl, C8_within_loop_dedup.1 c8KPages 0 3 ∅ _ _ rfl⟩

/-! ## OpenAlexCSVProcessor.process_publication (src/scrapers/openalex_processor.py) -/

/-- Embeds Python `sep.join(l)`. -/
def pyJoin (sep : String) : List String → String
  | [] => ""
  | [x] => x
  | x :: y :: rest => x ++ sep ++ pyJoin sep (y :: rest)

/-- One OpenAlex work as read by `process_publication`: the fields it
accesses, with `Option` for authorship/concept entries whose `author` /
`display_name` keys may be falsy. -/
structure OAWork where
  doi : String
  title : String
  abstractWords : List String
  authorships : List (Option String)
  concepts : List (Option String)
  year : String
  journal : String
  citations : Nat
  deriving DecidableEq

/-- Output row of `process_publication`. -/
structure OAPub where
  doi : String
  title : String
  abstract : String
  authors : String
  concepts : String
  year : String
  journal : String
  citations : Nat
  expert_first : String
  expert_last : String
  deriving DecidableEq

/-- Embeds `OpenAlexCSVProcessor.process_publication`: rejects works whose
doi OR title is falsy, otherwise emits the row with joined author and
concept names (falsy concept names are skipped, falsy authorship entries are
skipped). -/
def OpenAlexCSVProcessor.process_publication (work : OAWork)
    (first last : String) : Option OAPub :=
  if work.doi = "" then none
  else if work.title = "" then none
  else
    let abstract := if work.abstractWords ≠ [] then pyJoin " " work.abstractWords else ""
    let authors := work.authorships.filterMap id
    let concepts := (work.concepts.filterMap id).filter (fun s => s ≠ "")
    some { doi := work.doi, title := work.title, abstract := abstract,
           authors := pyJoin "|" authors, concepts := pyJoin "|" concepts,
           year := work.year, journal := work.journal, citations := work.citations,
           expert_first := first, expert_last := last }

/-! ## Claim C6: adapter-boundary validation -/

/-- Knowhub item with a present but empty-texted title anchor and no DOI in
its detail metadata. -/
def c6Item : KnowhubItem :=
  { titleElem := some { text := "", href := "/k" },
    detail := some { authors := [], dateStr := "", abstract := "", subjects := [],
                     doi := "", journal := "", dtype := "" } }

/-- C6 counterexample: `_parse_publication` only checks that the title
ELEMENT exists, not that its text is non-empty, so an item whose title
anchor has empty text and whose metadata has no DOI yields a record with
empty title AND empty doi — it is not rejected at the adapter boundary. -/
theorem C6_counterexample :
    ∃ pub, KnowhubScraper.parse_publication c6Item = some pub ∧
      pub.title = "" ∧ pub.doi = "" := by
  refine ⟨_, rfl, rfl, rfl⟩

/-- C6 amended: `process_publication` does validate both identity fields —
every record it emits has a non-empty doi AND a non-empty title; Knowhub's
`_parse_publication` rejects an item only when the title element is missing
or the detail-page request failed, and otherwise copies the raw title text
and metadata doi unvalidated (so a record lacking both fields can be
emitted, as the counterexample shows). -/
theorem C6_boundary_validation :
    (∀ (w : OAWork) (first last : String) (p : OAPub),
      OpenAlexCSVProcessor.process_publication w first last = some p →
      p.doi ≠ "" ∧ p.title ≠ "")
    ∧ (∀ (it : KnowhubItem) (pub : UnifiedContent),
      KnowhubScraper.parse_publication it = some pub →
      ∃ el md, it.titleElem = some el ∧ it.detail = some md ∧
        pub.title = pyStrip el.text ∧ pub.doi = md.doi) := by
  constructor
  · intro w first last p h
    unfold OpenAlexCSVProcessor.process_publication at h
    by_cases hdoi : w.doi = ""
    · rw [if_pos hdoi] at h
      exact absurd h (by simp)
    · rw [if_neg hdoi] at h
      by_cases htitle : w.title = ""
      · rw [if_pos htitle] at h
        exact absurd h (by simp)
      · rw [if_neg htitle] at h
        simp only [Option.some.injEq] at h
        rw [← h]
        exact ⟨hdoi, htitle⟩
  · intro it pub h
    unfold KnowhubScraper.parse_publication at h
    cases hel : it.titleElem with
    | none => rw [hel] at h; exact absurd h (by simp)
    | some el =>
      rw [hel] at h
      dsimp only at h
      cases hmd : it.detail with
      | none => rw [hmd] at h; exact absurd h (by simp)
      | some md =>
        rw [hmd] at h
        simp only [Option.some.injEq] at h
        exact ⟨el, md, rfl, rfl, by rw [← h], by rw [← h]⟩

/-- Valid OpenAlex work used to instantiate the C6 theorem. -/
def c6Work : OAWork :=
  { doi := "https://doi.org/10.1/w", title := "A Work", abstractWords := ["x", "y"],
    authorships := [some "A. Author", none], concepts := [some "Health", some ""],
    year := "2020", journal := "J", citations := 3 }

/-- C6 witness: the validation theorem instantiated at a concrete accepted
OpenAlex work and at the concrete rejected-fields Knowhub item. -/
theorem C6_boundary_validation_witness :
    ∃ p, OpenAlexCSVProcessor.process_publication c6Work "F" "L" = some p ∧
      p.doi ≠ "" ∧ p.title ≠ "" :=
  ⟨_, rfl, C6_boundary_validation.1 c6Work "F" "L" _ rfl⟩

/-! ## Retry logic (src/scrapers/openalex_processor.py, orcid_scraper.py) -/

/-- Outcome of one authors-search request in `get_expert_data`: a 200
response carrying its results list, a 429 rate limit, or anything else
(non-200 status, empty variants are represented by `ok []`, raised
exceptions by `err`). -/
inductive OAResp where
  | ok : List (String × String) → OAResp
  | rate429 : OAResp
  | err : OAResp

/-- Attempt loop of `get_expert_data` (`for attempt in range(3)`): a 200
response with a non-empty results list returns the first author's
(orcid, openalex id); every other outcome falls through to the next attempt. -/
def expertDataLoop (responses : Nat → OAResp) : Nat → Nat → String × String
  | 0, _ => ("", "")
  | attemptsLeft + 1, k =>
    match responses k with
    | OAResp.ok (a :: _) => a
    | _ => expertDataLoop responses attemptsLeft (k + 1)

/-- Embeds `OpenAlexCSVProcessor.get_expert_data`: at most 3 attempts, then
the failure value `('', '')`. -/
def OpenAlexCSVProcessor.get_expert_data (responses : Nat → OAResp) : String × String :=
  expertDataLoop responses 3 0

/-- Number of requests `expertDataLoop` issues. -/
def expertDataRequests (responses : Nat → OAResp) : Nat → Nat → Nat
  | 0, _ => 0
  | attemptsLeft + 1, k =>
    match responses k with
    | OAResp.ok (_ :: _) => 1
    | _ => 1 + expertDataRequests responses attemptsLeft (k + 1)

/-- Outcome of one detail-work request in `_get_detailed_work`: a parsed
JSON payload (opaque here), an HTTP 429 `RequestException`, or another
raised exception. -/
inductive OrcidResp where
  | ok : String → OrcidResp
  | rate429 : OrcidResp
  | err : OrcidResp

/-- Embeds `OrcidScraper._get_detailed_work`: a 429 response sleeps and
RECURSES with no attempt counter; any other exception propagates
(`Except.error`).  The fuel counts recursion depth; `none` means the
function is still re-issuing the request when the fuel runs out. -/
def OrcidScraper.get_detailed_work (responses : Nat → OrcidResp) :
    Nat → Nat → Option (Except Unit String)
  | 0, _ => none
  | fuel + 1, k =>
    match responses k with
    | OrcidResp.ok payload => some (Except.ok payload)
    | OrcidResp.rate429 => OrcidScraper.get_detailed_work responses fuel (k + 1)
    | OrcidResp.err => some (Except.error ())

/-- Number of requests `_get_detailed_work` issues within the given
recursion depth. -/
def orcidDetailRequests (responses : Nat → OrcidResp) : Nat → Nat → Nat
  | 0, _ => 0
  | fuel + 1, k =>
    match responses k with
    | OrcidResp.rate429 => 1 + orcidDetailRequests responses fuel (k + 1)
    | _ => 1

/-! ## Claim C3: bounded retry -/

/-- C3 evaluation at the failing input: against an upstream that answers
HTTP 429 forever, `_get_detailed_work` never completes at ANY recursion
depth and issues one request per available depth — the retries are
unbounded, contradicting the 3-attempt guarantee; `get_expert_data`, by
contrast, is bounded by its 3-attempt loop for every response stream. -/
theorem C3_unbounded_retry :
    (∀ fuel k, OrcidScraper.get_detailed_work (fun _ => OrcidResp.rate429) fuel k
      = none)
    ∧ (∀ fuel k, orcidDetailRequests (fun _ => OrcidResp.rate429) fuel k = fuel)
    ∧ (∀ (responses : Nat → OAResp) (attempts k : Nat),
        expertDataRequests responses attempts k ≤ attempts) := by
  refine ⟨?_, ?_, ?_⟩
  · intro fuel
    induction fuel with
    | zero => intro k; rfl
    | succ fuel ih =>
      intro k
      simpa [OrcidScraper.get_detailed_work] using ih (k + 1)
  · intro fuel
    induction fuel with
    | zero => intro k; rfl
    | succ fuel ih =>
      intro k
      simp only [orcidDetailRequests]
      rw [ih (k + 1)]
      omega
  · intro responses attempts
    induction attempts with
    | zero => intro k; exact Nat.le_refl 0
    | succ attempts ih =>
      intro k
      simp only [expertDataRequests]
      cases responses k with
      | ok l =>
        cases l with
        | nil =>
          dsimp only
          have := ih (k + 1)
          omega
        | cons a rest =>
          dsimp only
          omega
      | rate429 =>
        dsimp only
        have := ih (k + 1)
        omega
      | err =>
        dsimp only
        have := ih (k + 1)
        omega

/-! ## process_additional_sources (main.py) -/

/-- Embeds the `pub.source = '...'` assignment performed on each accepted
record before registration. -/
def tagSource (src : String) (r : UnifiedContent) : UnifiedContent :=
  { r with source := src }

/-- Embeds pandas `Series.unique()`: keep-first dedup of the ORCID column. -/
def pdUnique : List String → Finset String → List String
  | [], _ => []
  | x :: rest, seen =>
    if x ∈ seen then pdUnique rest seen else x :: pdUnique rest (insert x seen)

/-- Per-orcid-id loop of the ORCID block: each id's fetch is tried
independently (`Except.error` models `fetch_researcher_publications`
raising, caught by the per-id `except: continue`); a successful batch is
filtered against the CURRENT index, then every survivor is tagged and
registered. -/
def orcidLoop (fetch : String → Except Unit (List UnifiedContent)) :
    List String → ContentExporter → List UnifiedContent →
    List UnifiedContent × ContentExporter
  | [], e, acc => (acc, e)
  | oid :: rest, e, acc =>
    match fetch oid with
    | Except.error _ => orcidLoop fetch rest e acc
    | Except.ok pubs =>
      let uniq := pubs.filter (fun p => ! e.is_duplicate p.doi p.title)
      let e2 := uniq.foldl (fun ex p => ex.add_content p.doi p.title) e
      orcidLoop fetch rest e2 (acc ++ uniq.map (tagSource "ORCID"))

/-- Filter-then-register block shared by the Knowhub and website steps:
filter the fetched batch against the current index (without intra-batch
dedup, exactly as the list comprehension does), then register and tag each
survivor. -/
def registerBatch (e : ContentExporter) (src : String)
    (content : List UnifiedContent) : List UnifiedContent × ContentExporter :=
  let uniq := content.filter (fun p => ! e.is_duplicate p.doi p.title)
  (uniq.map (tagSource src), uniq.foldl (fun ex p => ex.add_content p.doi p.title) e)

/-- Embeds `process_additional_sources`: seed the index from the OpenAlex
DataFrame, then run the ORCID block (skipped without credentials; an
`Except.error` source models `OrcidScraper(...)` raising, caught by the
block's `except`), the Knowhub block and the website block, each wrapped in
its own try/except so a failed fetch (`Except.error`) contributes nothing
and the run continues; the returned collection is the concatenation of the
accepted lists. -/
def process_additional_sources (openalex_df : List OARow) (e : ContentExporter)
    (creds : Bool)
    (orcidSource : Except Unit (String → Except Unit (List UnifiedContent)))
    (knowhub website : Except Unit (List UnifiedContent)) :
    List UnifiedContent × ContentExporter :=
  let e1 := e.initialize_from_openalex openalex_df
  let orcidStep :=
    if creds then
      match orcidSource with
      | Except.error _ => ([], e1)
      | Except.ok fetch =>
        orcidLoop fetch (pdUnique (openalex_df.filterMap OARow.orcid) ∅) e1 []
    else ([], e1)
  let khStep :=
    match knowhub with
    | Except.error _ => ([], orcidStep.2)
    | Except.ok content => registerBatch orcidStep.2 "Knowhub" content
  let webStep :=
    match website with
    | Except.error _ => ([], khStep.2)
    | Except.ok content => registerBatch khStep.2 "Website" content
  (orcidStep.1 ++ khStep.1 ++ webStep.1, webStep.2)

theorem orcidLoop_allError :
    ∀ (ids : List String) (e : ContentExporter) (acc : List UnifiedContent),
      orcidLoop (fun _ => Except.error ()) ids e acc = (acc, e) := by
  intro ids
  induction ids with
  | nil => intro e acc; rfl
  | cons oid rest ih => intro e acc; exact ih e acc

/-! ## Claim C4: partial-failure resilience -/

/-- Records used in the C4 concrete scenario. -/
def c4KnowhubRec : UnifiedContent :=
  { title := "KH Item", authors := [], date := "", abstract := "", url := "u1",
    source := "knowhub", content_type := "publication", keywords := [],
    doi := "10.1/kh", handle := "h1", journal := "", full_text := "",
    image_url := "", orcid_id := "", document_type := "" }

def c4WebsiteRec : UnifiedContent :=
  { title := "Web Item", authors := [], date := "", abstract := "", url := "u2",
    source := "website", content_type := "blogs", keywords := [],
    doi := "10.1/web", handle := "", journal := "", full_text := "",
    image_url := "", orcid_id := "", document_type := "" }

/-- C4: a source's total failure is indistinguishable from that source
fetching nothing — the run proceeds through every subsequent block with the
identical index state and returns the other sources' accepted records.
Stated as: replacing any one failing source by an empty success leaves
`process_additional_sources` unchanged, and concretely a run whose ORCID
step raises at initialization still returns the Knowhub and website records. -/
theorem C4_partial_failure_resilience :
    (∀ (df : List OARow) (e : ContentExporter) (creds : Bool) (u : Unit)
       (kh web : Except Unit (List UnifiedContent)),
       process_additional_sources df e creds (Except.error u) kh web
         = process_additional_sources df e creds
             (Except.ok (fun _ => Except.error ())) kh web)
    ∧ (∀ (df : List OARow) (e : ContentExporter) (creds : Bool)
       (os : Except Unit (String → Except Unit (List UnifiedContent))) (u : Unit)
       (web : Except Unit (List UnifiedContent)),
       process_additional_sources df e creds os (Except.error u) web
         = process_additional_sources df e creds os (Except.ok []) web)
    ∧ (∀ (df : List OARow) (e : ContentExporter) (creds : Bool)
       (os : Except Unit (String → Except Unit (List UnifiedContent))) (u : Unit)
       (kh : Except Unit (List UnifiedContent)),
       process_additional_sources df e creds os kh (Except.error u)
         = process_additional_sources df e creds os kh (Except.ok []))
    ∧ (process_additional_sources [] ContentExporter.empty true (Except.error ())
        (Except.ok [c4KnowhubRec]) (Except.ok [c4WebsiteRec])).1
      = [tagSource "Knowhub" c4KnowhubRec, tagSource "Website" c4WebsiteRec] := by
  refine ⟨?_, ?_, ?_, ?_⟩
  · intro df e creds u kh web
    cases creds with
    | false => rfl
    | true =>
      unfold process_additional_sources
      dsimp only
      rw [orcidLoop_allError]
  · intro df e creds os u web
    rfl
  · intro df e creds os u kh
    rfl
  · rfl

/-! ## Claim C9: Identity Index append-only, is_duplicate pure -/

/-- One Identity Index operation of a pipeline run. -/
inductive ExporterOp where
  | init : List OARow → ExporterOp
  | register : String → String → ExporterOp
  | query : String → String → ExporterOp

/-- State transition of one operation: `initialize_from_openalex` and
`add_content` update the seen-sets; `is_duplicate` reads them and (as in the
source, which performs no assignment in that method) leaves the state as it
is. -/
def ExporterOp.apply (e : ContentExporter) : ExporterOp → ContentExporter
  | ExporterOp.init df => e.initialize_from_openalex df
  | ExporterOp.register d t => e.add_content d t
  | ExporterOp.query _ _ => e

theorem ExporterOp.apply_mono (e : ContentExporter) (op : ExporterOp) :
    e.seen_dois ⊆ (ExporterOp.apply e op).seen_dois
    ∧ e.seen_titles ⊆ (ExporterOp.apply e op).seen_titles := by
  cases op with
  | init df =>
    exact ⟨Finset.subset_union_left, Finset.subset_union_left⟩
  | register d t =>
    constructor
    · by_cases hd : d = "" <;>
        simp [ExporterOp.apply, ContentExporter.add_content, hd,
          Finset.subset_insert]
    · by_cases ht : t = "" <;>
        simp [ExporterOp.apply, ContentExporter.add_content, ht,
          Finset.subset_insert]
  | query d t =>
    exact ⟨Finset.Subset.refl _, Finset.Subset.refl _⟩

/-- C9: over any sequence of Identity Index operations, the seen-DOI and
seen-title sets only grow (no key is ever removed once admitted), and
`is_duplicate` is a pure query: its step is the identity on the state, so
deleting a query from a trace never changes the resulting state. -/
theorem C9_append_only_pure_query :
    (∀ (e : ContentExporter) (ops : List ExporterOp),
      e.seen_dois ⊆ (ops.foldl ExporterOp.apply e).seen_dois
      ∧ e.seen_titles ⊆ (ops.foldl ExporterOp.apply e).seen_titles)
    ∧ (∀ (e : ContentExporter) (d t : String),
      ExporterOp.apply e (ExporterOp.query d t) = e)
    ∧ (∀ (e : ContentExporter) (ops1 ops2 : List ExporterOp) (d t : String),
      (ops1 ++ ExporterOp.query d t :: ops2).foldl ExporterOp.apply e
        = (ops1 ++ ops2).foldl ExporterOp.apply e) := by
  refine ⟨?_, ?_, ?_⟩
  · intro e ops
    induction ops generalizing e with
    | nil => exact ⟨Finset.Subset.refl _, Finset.Subset.refl _⟩
    | cons op rest ih =>
      rw [List.foldl_cons]
      have h1 := ExporterOp.apply_mono e op
      have h2 := ih (ExporterOp.apply e op)
      exact ⟨Finset.Subset.trans h1.1 h2.1, Finset.Subset.trans h1.2 h2.2⟩
  · intro e d t
    rfl
  · intro e ops1 ops2 d t
    rw [List.foldl_append, List.foldl_append, List.foldl_cons]
    rfl
